import Mathlib

/-!
Verification of the asynchronous job lifecycle manager of the backend
(`src/backend/src/app`): the job status enumeration and provider-code
mapping (`service.py`), the in-memory job registry (`store.py`), the
exponential backoff policy and retry executor (`utils.py`), and the
write traces produced by the polling orchestrator (`poll_job_status`)
and the completion processor (`process_job_completion`).

Python floats are modelled as rationals, dictionaries as association
lists with unique keys, exceptions as `Except` / explicit event
constructors, and the randomness of the jitter branch as an explicit
sample argument (unused when jitter is disabled).
-/

namespace HackHarvard

/-- `JobStatus` from `models.py`: job status enumeration matching the
Kiri Engine API status codes. -/
inductive JobStatus where
  | UPLOADING
  | PROCESSING
  | FAILED
  | SUCCESS
  | QUEUED
  | EXPIRED
deriving DecidableEq, Repr

/-- The string value of each `JobStatus` member (`models.py`). -/
def JobStatus.value : JobStatus → String
  | .UPLOADING => "uploading"
  | .PROCESSING => "processing"
  | .FAILED => "failed"
  | .SUCCESS => "success"
  | .QUEUED => "queued"
  | .EXPIRED => "expired"

/-- `KiriJobData` from `models.py`: the record stored per job in the
in-memory registry.  `created_at` is a Unix timestamp (a Python float,
modelled as a rational). -/
structure KiriJobData where
  jobId : String
  status : JobStatus
  error : Option String
  usdzUrl : Option String
  kiriSerialize : Option String
  created_at : ℚ
deriving DecidableEq, Repr

/-- `map_kiri_status_to_job_status` from `service.py` lines 43-62: the
dictionary lookup `status_mapping.get(kiri_status, JobStatus.PROCESSING)`
over the fixed table `-1,0,1,2,3,4`. -/
def map_kiri_status_to_job_status (kiri_status : Int) : JobStatus :=
  if kiri_status = -1 then .UPLOADING
  else if kiri_status = 0 then .PROCESSING
  else if kiri_status = 1 then .FAILED
  else if kiri_status = 2 then .SUCCESS
  else if kiri_status = 3 then .QUEUED
  else if kiri_status = 4 then .EXPIRED
  else .PROCESSING

/-- C3: the status-mapping function maps provider code -1 to UPLOADING,
0 to PROCESSING, 1 to FAILED, 2 to SUCCESS, 3 to QUEUED, 4 to EXPIRED,
and every other integer code to PROCESSING; it is a total Lean function
on `Int` (the Python dictionary `.get` with a default never raises). -/
theorem C3_status_mapping_table :
    map_kiri_status_to_job_status (-1) = JobStatus.UPLOADING ∧
    map_kiri_status_to_job_status 0 = JobStatus.PROCESSING ∧
    map_kiri_status_to_job_status 1 = JobStatus.FAILED ∧
    map_kiri_status_to_job_status 2 = JobStatus.SUCCESS ∧
    map_kiri_status_to_job_status 3 = JobStatus.QUEUED ∧
    map_kiri_status_to_job_status 4 = JobStatus.EXPIRED ∧
    ∀ c : Int, c ≠ -1 → c ≠ 0 → c ≠ 1 → c ≠ 2 → c ≠ 3 → c ≠ 4 →
      map_kiri_status_to_job_status c = JobStatus.PROCESSING := by
  refine ⟨rfl, rfl, rfl, rfl, rfl, rfl, ?_⟩
  intro c h1 h2 h3 h4 h5 h6
  simp [map_kiri_status_to_job_status, h1, h2, h3, h4, h5, h6]

/-- Witness for C3: the unrecognized-code clause evaluated at the
concrete code 7. -/
theorem C3_status_mapping_table_witness :
    map_kiri_status_to_job_status 7 = JobStatus.PROCESSING :=
  C3_status_mapping_table.2.2.2.2.2.2 7 (by decide) (by decide) (by decide)
    (by decide) (by decide) (by decide)

/-! ## Job registry (`store.py`)

The Python `JobStore` holds `self._jobs : Dict[str, KiriJobData]`.  A
dictionary with unique keys is modelled as an association list; the
per-operation lock makes each operation an atomic function from map to
map, which is exactly the functional embedding below. -/

/-- The registry's job map: Python `Dict[str, KiriJobData]`. -/
abbrev JobMap := List (String × KiriJobData)

/-- `self._jobs.get(job_id)` / `job_id in self._jobs`: first entry with
the given key. -/
def lookupJob (jobs : JobMap) (job_id : String) : Option KiriJobData :=
  match jobs with
  | [] => none
  | (k, v) :: rest => if k = job_id then some v else lookupJob rest job_id

/-- The effect of `JobStore.update_job_status` (lines 80-87 of
`store.py`) on one record: the status is overwritten unconditionally,
`error` and `usdzUrl` only when the corresponding argument is not
`None`. -/
def applyUpdate (j : KiriJobData) (status : JobStatus)
    (error usdz_url : Option String) : KiriJobData :=
  { j with
    status := status
    error := match error with
      | some e => some e
      | none => j.error
    usdzUrl := match usdz_url with
      | some u => some u
      | none => j.usdzUrl }

/-- The in-place mutation `self._jobs[job_id]` performed by
`update_job_status`, expressed as a map over the association list's
entries: only the entry with the matching key is rewritten. -/
def updateEntry (job_id : String) (status : JobStatus)
    (error usdz_url : Option String) (p : String × KiriJobData) :
    String × KiriJobData :=
  if p.1 = job_id then (p.1, applyUpdate p.2 status error usdz_url) else p

/-- `JobStore.update_job_status` from `store.py` lines 56-90: returns
the new map together with the boolean result (`False` when `job_id` is
not in the map, in which case the map is untouched). -/
def update_job_status (jobs : JobMap) (job_id : String) (status : JobStatus)
    (error usdz_url : Option String) : JobMap × Bool :=
  match lookupJob jobs job_id with
  | none => (jobs, false)
  | some _ => (jobs.map (updateEntry job_id status error usdz_url), true)

/-- C8: for every job_id absent from the registry, `update_job_status`
returns false, does not raise (it is a total function), and leaves the
job map completely unchanged — it never creates an entry for the
absent job_id. -/
theorem C8_update_absent_is_noop (jobs : JobMap) (job_id : String)
    (status : JobStatus) (error usdz_url : Option String)
    (habs : lookupJob jobs job_id = none) :
    update_job_status jobs job_id status error usdz_url = (jobs, false) := by
  simp [update_job_status, habs]

/-- Witness for C8: updating the job_id "missing" in a one-entry store. -/
theorem C8_update_absent_is_noop_witness :
    lookupJob [("a", ⟨"a", JobStatus.QUEUED, none, none, none, 0⟩)] "missing" = none ∧
    update_job_status [("a", ⟨"a", JobStatus.QUEUED, none, none, none, 0⟩)] "missing"
      JobStatus.FAILED (some "err") none
      = ([("a", ⟨"a", JobStatus.QUEUED, none, none, none, 0⟩)], false) :=
  ⟨by decide,
   C8_update_absent_is_noop [("a", ⟨"a", JobStatus.QUEUED, none, none, none, 0⟩)]
     "missing" JobStatus.FAILED (some "err") none (by decide)⟩

/-- `updateEntry` on a matching key. -/
theorem updateEntry_pos (job_id : String) (status : JobStatus)
    (error usdz_url : Option String) (p : String × KiriJobData)
    (hp : p.1 = job_id) :
    updateEntry job_id status error usdz_url p
      = (p.1, applyUpdate p.2 status error usdz_url) := by
  unfold updateEntry
  rw [if_pos hp]

/-- `updateEntry` on a non-matching key. -/
theorem updateEntry_neg (job_id : String) (status : JobStatus)
    (error usdz_url : Option String) (p : String × KiriJobData)
    (hp : p.1 ≠ job_id) :
    updateEntry job_id status error usdz_url p = p := by
  unfold updateEntry
  rw [if_neg hp]

/-- Looking up the updated key after the entry map yields the updated
record. -/
theorem lookupJob_map_updateEntry (jobs : JobMap) (job_id : String)
    (j : KiriJobData) (status : JobStatus) (error usdz_url : Option String)
    (h : lookupJob jobs job_id = some j) :
    lookupJob (jobs.map (updateEntry job_id status error usdz_url)) job_id
      = some (applyUpdate j status error usdz_url) := by
  induction jobs with
  | nil => simp [lookupJob] at h
  | cons hd tl ih =>
    obtain ⟨k, v⟩ := hd
    by_cases hk : k = job_id
    · subst hk
      have hv : v = j := by simpa [lookupJob] using h
      subst hv
      rw [List.map_cons, updateEntry_pos k status error usdz_url (k, v) rfl]
      simp [lookupJob]
    · have h' : lookupJob tl job_id = some j := by simpa [lookupJob, hk] using h
      rw [List.map_cons, updateEntry_neg job_id status error usdz_url (k, v) hk]
      simpa [lookupJob, hk] using ih h'

/-- Applying the SUCCESS-with-url update twice is the same as applying
it once, entrywise. -/
theorem updateEntry_success_idem (job_id X : String)
    (p : String × KiriJobData) :
    updateEntry job_id JobStatus.SUCCESS none (some X)
      (updateEntry job_id JobStatus.SUCCESS none (some X) p)
      = updateEntry job_id JobStatus.SUCCESS none (some X) p := by
  by_cases hp : p.1 = job_id
  · rw [updateEntry_pos job_id JobStatus.SUCCESS none (some X) p hp]
    rw [updateEntry_pos job_id JobStatus.SUCCESS none (some X)
      (p.1, applyUpdate p.2 JobStatus.SUCCESS none (some X)) hp]
    rfl
  · rw [updateEntry_neg job_id JobStatus.SUCCESS none (some X) p hp,
      updateEntry_neg job_id JobStatus.SUCCESS none (some X) p hp]

/-- Mapping the SUCCESS-with-url entry update twice over a list equals
mapping it once. -/
theorem map_updateEntry_success_idem (job_id X : String) (l : JobMap) :
    (l.map (updateEntry job_id JobStatus.SUCCESS none (some X))).map
        (updateEntry job_id JobStatus.SUCCESS none (some X))
      = l.map (updateEntry job_id JobStatus.SUCCESS none (some X)) := by
  induction l with
  | nil => rfl
  | cons p t ih => simp [List.map_cons, ih, updateEntry_success_idem]

/-- Re-updating the already SUCCESS-updated map is the identity on it. -/
theorem update_update_success (jobs : JobMap) (job_id X : String)
    (j : KiriJobData) (h : lookupJob jobs job_id = some j) :
    update_job_status (jobs.map (updateEntry job_id JobStatus.SUCCESS none (some X)))
        job_id JobStatus.SUCCESS none (some X)
      = (jobs.map (updateEntry job_id JobStatus.SUCCESS none (some X)), true) := by
  have hlk := lookupJob_map_updateEntry jobs job_id j JobStatus.SUCCESS none (some X) h
  simp only [update_job_status, hlk]
  rw [map_updateEntry_success_idem]

/-- C9: for an existing job_id, calling
`update_job_status(job_id, SUCCESS, usdz_url=X)` twice in succession
does not throw (both calls succeed, returning true); the second call
returns the map of the first one unchanged, and the record stored for
job_id after the first (hence after the second) call has status
SUCCESS and usdzUrl X. -/
theorem C9_update_success_idempotent (jobs : JobMap) (job_id X : String)
    (j : KiriJobData) (h : lookupJob jobs job_id = some j) :
    (update_job_status jobs job_id JobStatus.SUCCESS none (some X)).2 = true ∧
    update_job_status (update_job_status jobs job_id JobStatus.SUCCESS none (some X)).1
        job_id JobStatus.SUCCESS none (some X)
      = ((update_job_status jobs job_id JobStatus.SUCCESS none (some X)).1, true) ∧
    lookupJob (update_job_status jobs job_id JobStatus.SUCCESS none (some X)).1 job_id
      = some (applyUpdate j JobStatus.SUCCESS none (some X)) ∧
    (applyUpdate j JobStatus.SUCCESS none (some X)).status = JobStatus.SUCCESS ∧
    (applyUpdate j JobStatus.SUCCESS none (some X)).usdzUrl = some X := by
  have h1 : update_job_status jobs job_id JobStatus.SUCCESS none (some X)
      = (jobs.map (updateEntry job_id JobStatus.SUCCESS none (some X)), true) := by
    simp [update_job_status, h]
  have hlk : lookupJob (jobs.map (updateEntry job_id JobStatus.SUCCESS none (some X))) job_id
      = some (applyUpdate j JobStatus.SUCCESS none (some X)) :=
    lookupJob_map_updateEntry jobs job_id j _ _ _ h
  refine ⟨by simp [h1], ?_, by simp [h1, hlk], rfl, rfl⟩
  rw [h1]
  exact update_update_success jobs job_id X j h

/-- Witness for C9: a one-entry store updated twice. -/
theorem C9_update_success_idempotent_witness :
    (update_job_status [("a", ⟨"a", JobStatus.PROCESSING, none, none, none, 0⟩)]
        "a" JobStatus.SUCCESS none (some "u")).2 = true ∧
    update_job_status (update_job_status
          [("a", ⟨"a", JobStatus.PROCESSING, none, none, none, 0⟩)]
          "a" JobStatus.SUCCESS none (some "u")).1
        "a" JobStatus.SUCCESS none (some "u")
      = ((update_job_status [("a", ⟨"a", JobStatus.PROCESSING, none, none, none, 0⟩)]
          "a" JobStatus.SUCCESS none (some "u")).1, true) ∧
    lookupJob (update_job_status [("a", ⟨"a", JobStatus.PROCESSING, none, none, none, 0⟩)]
          "a" JobStatus.SUCCESS none (some "u")).1 "a"
      = some (applyUpdate ⟨"a", JobStatus.PROCESSING, none, none, none, 0⟩
          JobStatus.SUCCESS none (some "u")) ∧
    (applyUpdate (⟨"a", JobStatus.PROCESSING, none, none, none, 0⟩ : KiriJobData)
        JobStatus.SUCCESS none (some "u")).status = JobStatus.SUCCESS ∧
    (applyUpdate (⟨"a", JobStatus.PROCESSING, none, none, none, 0⟩ : KiriJobData)
        JobStatus.SUCCESS none (some "u")).usdzUrl = some "u" :=
  C9_update_success_idempotent [("a", ⟨"a", JobStatus.PROCESSING, none, none, none, 0⟩)]
    "a" "u" ⟨"a", JobStatus.PROCESSING, none, none, none, 0⟩ (by decide)

/-- C10: for an existing job record, `update_job_status` overwrites
the status unconditionally, leaves `error` unchanged when the error
argument is None, leaves `usdzUrl` unchanged when the usdz_url
argument is None, and never modifies `jobId`, `kiriSerialize` or
`created_at`. -/
theorem C10_update_frame (jobs : JobMap) (job_id : String)
    (status : JobStatus) (error usdz_url : Option String) (j : KiriJobData)
    (h : lookupJob jobs job_id = some j) :
    (update_job_status jobs job_id status error usdz_url).2 = true ∧
    lookupJob (update_job_status jobs job_id status error usdz_url).1 job_id
      = some (applyUpdate j status error usdz_url) ∧
    (applyUpdate j status error usdz_url).status = status ∧
    (error = none → (applyUpdate j status error usdz_url).error = j.error) ∧
    (usdz_url = none → (applyUpdate j status error usdz_url).usdzUrl = j.usdzUrl) ∧
    (applyUpdate j status error usdz_url).jobId = j.jobId ∧
    (applyUpdate j status error usdz_url).kiriSerialize = j.kiriSerialize ∧
    (applyUpdate j status error usdz_url).created_at = j.created_at := by
  refine ⟨by simp [update_job_status, h], ?_, rfl, ?_, ?_, rfl, rfl, rfl⟩
  · simp [update_job_status, h]
    exact lookupJob_map_updateEntry jobs job_id j _ _ _ h
  · rintro rfl; rfl
  · rintro rfl; rfl

/-- Witness for C10: a status-only update of an existing record with
previously set error and url fields. -/
theorem C10_update_frame_witness :
    (update_job_status [("a", ⟨"a", JobStatus.SUCCESS, some "e", some "u", some "k", 5⟩)]
        "a" JobStatus.PROCESSING none none).2 = true ∧
    lookupJob (update_job_status
        [("a", ⟨"a", JobStatus.SUCCESS, some "e", some "u", some "k", 5⟩)]
        "a" JobStatus.PROCESSING none none).1 "a"
      = some (applyUpdate ⟨"a", JobStatus.SUCCESS, some "e", some "u", some "k", 5⟩
          JobStatus.PROCESSING none none) ∧
    (applyUpdate (⟨"a", JobStatus.SUCCESS, some "e", some "u", some "k", 5⟩ : KiriJobData)
        JobStatus.PROCESSING none none).status = JobStatus.PROCESSING ∧
    ((none : Option String) = none →
      (applyUpdate (⟨"a", JobStatus.SUCCESS, some "e", some "u", some "k", 5⟩ : KiriJobData)
        JobStatus.PROCESSING none none).error = some "e") ∧
    ((none : Option String) = none →
      (applyUpdate (⟨"a", JobStatus.SUCCESS, some "e", some "u", some "k", 5⟩ : KiriJobData)
        JobStatus.PROCESSING none none).usdzUrl = some "u") ∧
    (applyUpdate (⟨"a", JobStatus.SUCCESS, some "e", some "u", some "k", 5⟩ : KiriJobData)
        JobStatus.PROCESSING none none).jobId = "a" ∧
    (applyUpdate (⟨"a", JobStatus.SUCCESS, some "e", some "u", some "k", 5⟩ : KiriJobData)
        JobStatus.PROCESSING none none).kiriSerialize = some "k" ∧
    (applyUpdate (⟨"a", JobStatus.SUCCESS, some "e", some "u", some "k", 5⟩ : KiriJobData)
        JobStatus.PROCESSING none none).created_at = 5 :=
  C10_update_frame [("a", ⟨"a", JobStatus.SUCCESS, some "e", some "u", some "k", 5⟩)]
    "a" JobStatus.PROCESSING none none
    ⟨"a", JobStatus.SUCCESS, some "e", some "u", some "k", 5⟩ (by decide)

/-! ## Age-based eviction (`JobStore.cleanup_old_jobs`, `store.py` 146-175) -/

/-- `job.status in [JobStatus.SUCCESS, JobStatus.FAILED, JobStatus.EXPIRED]`
(`store.py` line 164): the terminal statuses. -/
def isTerminal : JobStatus → Bool
  | .SUCCESS => true
  | .FAILED => true
  | .EXPIRED => true
  | _ => false

/-- The removal condition of `cleanup_old_jobs` (`store.py` lines
164-165): terminal status and `current_time - job.created_at >
max_age_seconds`. -/
def shouldRemove (current_time max_age_seconds : ℚ) (j : KiriJobData) : Bool :=
  isTerminal j.status && decide (current_time - j.created_at > max_age_seconds)

/-- `del self._jobs[job_id]` on the association list: remove the (at
most one, keys being unique) entry with the given key. -/
def eraseJob : JobMap → String → JobMap
  | [], _ => []
  | (k, v) :: rest, job_id =>
      if k = job_id then rest else (k, v) :: eraseJob rest job_id

/-- `JobStore.cleanup_old_jobs` from `store.py` lines 146-175: collect
the ids of removable jobs, then delete each and count them. -/
def cleanup_old_jobs (jobs : JobMap) (current_time max_age_hours : ℚ) :
    JobMap × Nat :=
  let max_age_seconds := max_age_hours * 3600
  let jobs_to_remove :=
    (jobs.filter (fun p => shouldRemove current_time max_age_seconds p.2)).map Prod.fst
  (jobs_to_remove.foldl eraseJob jobs, jobs_to_remove.length)

/-- Folding `eraseJob` over keys that all differ from the head key
leaves the head in place. -/
theorem foldl_eraseJob_cons (l : List String) :
    ∀ (jobs : JobMap) (k : String) (v : KiriJobData), k ∉ l →
      l.foldl eraseJob ((k, v) :: jobs) = (k, v) :: l.foldl eraseJob jobs := by
  induction l with
  | nil => intro jobs k v _; rfl
  | cons x xs ih =>
    intro jobs k v hk
    have hkx : k ≠ x := fun he => hk (he ▸ List.mem_cons_self x xs)
    have hkxs : k ∉ xs := fun hm => hk (List.mem_cons_of_mem x hm)
    have hstep : eraseJob ((k, v) :: jobs) x = (k, v) :: eraseJob jobs x := by
      show (if k = x then jobs else (k, v) :: eraseJob jobs x) = (k, v) :: eraseJob jobs x
      rw [if_neg hkx]
    rw [List.foldl_cons, hstep, List.foldl_cons, ih (eraseJob jobs x) k v hkxs]

/-- Core of C7: with unique keys, deleting the collected removable ids
is the same as filtering the map by the negated removal condition. -/
theorem foldl_eraseJob_filter (t secs : ℚ) :
    ∀ jobs : JobMap, (jobs.map Prod.fst).Nodup →
      ((jobs.filter (fun p => shouldRemove t secs p.2)).map Prod.fst).foldl
          eraseJob jobs
        = jobs.filter (fun p => !shouldRemove t secs p.2) := by
  intro jobs
  induction jobs with
  | nil => intro _; rfl
  | cons hd rest ih =>
    intro hnd
    obtain ⟨k, v⟩ := hd
    rw [List.map_cons, List.nodup_cons] at hnd
    obtain ⟨hknotin, hnd'⟩ := hnd
    have hsub : ((rest.filter (fun p => shouldRemove t secs p.2)).map Prod.fst)
        ⊆ rest.map Prod.fst :=
      List.map_subset Prod.fst (List.filter_sublist _).subset
    have hknotin' : k ∉ (rest.filter (fun p => shouldRemove t secs p.2)).map Prod.fst :=
      fun hm => hknotin (hsub hm)
    by_cases hr : shouldRemove t secs v
    · have hfil : ((k, v) :: rest).filter (fun p => shouldRemove t secs p.2)
          = (k, v) :: rest.filter (fun p => shouldRemove t secs p.2) := by
        simp [List.filter_cons, hr]
      have hfil' : ((k, v) :: rest).filter (fun p => !shouldRemove t secs p.2)
          = rest.filter (fun p => !shouldRemove t secs p.2) := by
        simp [List.filter_cons, hr]
      rw [hfil, hfil', List.map_cons, List.foldl_cons]
      have herase : eraseJob ((k, v) :: rest) k = rest := by
        show (if k = k then rest else (k, v) :: eraseJob rest k) = rest
        rw [if_pos rfl]
      rw [herase]
      exact ih hnd'
    · have hfil : ((k, v) :: rest).filter (fun p => shouldRemove t secs p.2)
          = rest.filter (fun p => shouldRemove t secs p.2) := by
        simp [List.filter_cons, hr]
      have hfil' : ((k, v) :: rest).filter (fun p => !shouldRemove t secs p.2)
          = (k, v) :: rest.filter (fun p => !shouldRemove t secs p.2) := by
        simp [List.filter_cons, hr]
      rw [hfil, hfil',
        foldl_eraseJob_cons _ rest k v hknotin']
      rw [ih hnd']

/-- C7: with unique keys (a Python dict), `cleanup_old_jobs` removes
exactly the records whose status is terminal and whose age strictly
exceeds the threshold (in seconds, `max_age_hours * 3600`), returns
the number removed, and leaves every other record present and
unchanged (the result is the subsequence of untouched records). -/
theorem C7_cleanup_removes_exactly_old_terminal (jobs : JobMap)
    (current_time max_age_hours : ℚ)
    (hnd : (jobs.map Prod.fst).Nodup) :
    (cleanup_old_jobs jobs current_time max_age_hours).1
      = jobs.filter (fun p => !shouldRemove current_time (max_age_hours * 3600) p.2) ∧
    (cleanup_old_jobs jobs current_time max_age_hours).2
      = (jobs.filter (fun p => shouldRemove current_time (max_age_hours * 3600) p.2)).length := by
  constructor
  · exact foldl_eraseJob_filter current_time (max_age_hours * 3600) jobs hnd
  · simp [cleanup_old_jobs]

/-- Witness for C7: a store holding an old terminal job (evicted), a
young terminal job (kept) and an old non-terminal job (kept); the
threshold is 24 hours and `current_time` is 100 hours. -/
theorem C7_cleanup_removes_exactly_old_terminal_witness :
    (cleanup_old_jobs
        [("old-done", ⟨"old-done", JobStatus.SUCCESS, none, some "u", none, 0⟩),
         ("new-done", ⟨"new-done", JobStatus.FAILED, some "e", none, none, 350000⟩),
         ("old-live", ⟨"old-live", JobStatus.PROCESSING, none, none, none, 0⟩)]
        360000 24).1
      = [("old-done", ⟨"old-done", JobStatus.SUCCESS, none, some "u", none, 0⟩),
         ("new-done", ⟨"new-done", JobStatus.FAILED, some "e", none, none, 350000⟩),
         ("old-live", ⟨"old-live", JobStatus.PROCESSING, none, none, none, 0⟩)].filter
          (fun p => !shouldRemove 360000 (24 * 3600) p.2) ∧
    (cleanup_old_jobs
        [("old-done", ⟨"old-done", JobStatus.SUCCESS, none, some "u", none, 0⟩),
         ("new-done", ⟨"new-done", JobStatus.FAILED, some "e", none, none, 350000⟩),
         ("old-live", ⟨"old-live", JobStatus.PROCESSING, none, none, none, 0⟩)]
        360000 24).2
      = ([("old-done", ⟨"old-done", JobStatus.SUCCESS, none, some "u", none, 0⟩),
         ("new-done", ⟨"new-done", JobStatus.FAILED, some "e", none, none, 350000⟩),
         ("old-live", ⟨"old-live", JobStatus.PROCESSING, none, none, none, 0⟩)].filter
          (fun p => shouldRemove 360000 (24 * 3600) p.2)).length :=
  C7_cleanup_removes_exactly_old_terminal
    [("old-done", ⟨"old-done", JobStatus.SUCCESS, none, some "u", none, 0⟩),
     ("new-done", ⟨"new-done", JobStatus.FAILED, some "e", none, none, 350000⟩),
     ("old-live", ⟨"old-live", JobStatus.PROCESSING, none, none, none, 0⟩)]
    360000 24 (by decide)

/-! ## Exponential backoff (`utils.py` lines 16-59)

Python floats are rationals; `random.uniform(-jitter_range, jitter_range)`
is modelled as an explicit sample argument `u`, which the jitter branch
adds to the delay.  The claims only concern `jitter = false`, where `u`
is never used. -/

/-- The state of an `ExponentialBackoff` instance (`utils.py`): the
five constructor arguments plus the mutable `current_delay` and
`has_reached_max`. -/
structure ExponentialBackoff where
  initial_delay : ℚ
  max_delay : ℚ
  stable_delay : Option ℚ
  multiplier : ℚ
  jitter : Bool
  current_delay : ℚ
  has_reached_max : Bool
deriving DecidableEq, Repr

/-- `ExponentialBackoff.__init__`: `current_delay = initial_delay`,
`has_reached_max = False`. -/
def ExponentialBackoff.init (initial_delay max_delay : ℚ)
    (stable_delay : Option ℚ) (multiplier : ℚ) (jitter : Bool) :
    ExponentialBackoff :=
  ⟨initial_delay, max_delay, stable_delay, multiplier, jitter,
   initial_delay, false⟩

/-- `ExponentialBackoff.get_next_delay` (`utils.py` lines 35-54),
returning the delay together with the successor state.  `u` is the
jitter sample drawn by `random.uniform`. -/
def get_next_delay (b : ExponentialBackoff) (u : ℚ) : ℚ × ExponentialBackoff :=
  let delay :=
    match b.has_reached_max, b.stable_delay with
    | true, some s => s
    | _, _ => b.current_delay
  let delay := if b.jitter then delay + u else delay
  let b' :=
    if b.has_reached_max then b
    else
      let c := min (b.current_delay * b.multiplier) b.max_delay
      { b with current_delay := c, has_reached_max := decide (c ≥ b.max_delay) }
  (max 0 delay, b')

/-- The backoff state before the `n`-th call to `get_next_delay`
(jitter samples fixed to 0; they are irrelevant when jitter is off). -/
def statesFrom (b : ExponentialBackoff) : Nat → ExponentialBackoff
  | 0 => b
  | n + 1 => (get_next_delay (statesFrom b n) 0).2

/-- The value returned by the `n`-th call to `get_next_delay`. -/
def delayAt (b : ExponentialBackoff) (n : Nat) : ℚ :=
  (get_next_delay (statesFrom b n) 0).1

/-- Characterization of one `get_next_delay` call while the cap has
not been reached and jitter is off. -/
theorem get_next_delay_not_reached (b : ExponentialBackoff) (u : ℚ)
    (h : b.has_reached_max = false) (hj : b.jitter = false) :
    get_next_delay b u
      = (max 0 b.current_delay,
         { b with
           current_delay := min (b.current_delay * b.multiplier) b.max_delay,
           has_reached_max :=
             decide (min (b.current_delay * b.multiplier) b.max_delay ≥ b.max_delay) }) := by
  obtain ⟨i, m, st, mu, j, c, r⟩ := b
  simp only at h hj
  subst h
  subst hj
  rfl

/-- After the cap is reached the state is frozen. -/
theorem get_next_delay_reached_state (b : ExponentialBackoff) (u : ℚ)
    (h : b.has_reached_max = true) :
    (get_next_delay b u).2 = b := by
  obtain ⟨i, m, st, mu, j, c, r⟩ := b
  simp only at h
  subst h
  simp [get_next_delay]

/-- After the cap is reached and with jitter off, the returned value
is `max 0 (stable_delay or current_delay)`. -/
theorem get_next_delay_reached_value (b : ExponentialBackoff) (u : ℚ)
    (h : b.has_reached_max = true) (hj : b.jitter = false) :
    (get_next_delay b u).1 = max 0 (b.stable_delay.getD b.current_delay) := by
  obtain ⟨i, m, st, mu, j, c, r⟩ := b
  simp only at h hj
  subst h
  subst hj
  cases st <;> rfl

/-- The state of the counterexample backoff after one call: the max
was reached during the first call, `current_delay` sits at `-1`. -/
theorem counterexample_state1 :
    statesFrom (ExponentialBackoff.init (-1) (-1) none 1 false) 1
      = ⟨-1, -1, none, 1, false, -1, true⟩ := by
  show (get_next_delay (ExponentialBackoff.init (-1) (-1) none 1 false) 0).2 = _
  rw [get_next_delay_not_reached _ 0 rfl rfl]
  simp only [ExponentialBackoff.init, ExponentialBackoff.mk.injEq, decide_eq_true_eq]
  norm_num

/-- C4 fails as stated: the instance constructed with
`initial_delay = max_delay = -1`, `multiplier = 1` and jitter disabled
satisfies the claim's hypotheses (`initial_delay ≤ max_delay`,
`multiplier ≥ 1`), reaches the configured max after the first call,
has no stable_delay configured, yet the second returned value is `0`
(the code clamps with `max(0, delay)`) and not `max_delay = -1`. -/
theorem C4_backoff_monotone_counterexample :
    (ExponentialBackoff.init (-1) (-1) none 1 false).initial_delay
        ≤ (ExponentialBackoff.init (-1) (-1) none 1 false).max_delay ∧
    (1 : ℚ) ≤ (ExponentialBackoff.init (-1) (-1) none 1 false).multiplier ∧
    (ExponentialBackoff.init (-1) (-1) none 1 false).jitter = false ∧
    (ExponentialBackoff.init (-1) (-1) none 1 false).stable_delay = none ∧
    (statesFrom (ExponentialBackoff.init (-1) (-1) none 1 false) 1).has_reached_max = true ∧
    delayAt (ExponentialBackoff.init (-1) (-1) none 1 false) 1 = 0 ∧
    delayAt (ExponentialBackoff.init (-1) (-1) none 1 false) 1
      ≠ (ExponentialBackoff.init (-1) (-1) none 1 false).max_delay := by
  have hval : delayAt (ExponentialBackoff.init (-1) (-1) none 1 false) 1 = 0 := by
    unfold delayAt
    rw [counterexample_state1, get_next_delay_reached_value _ 0 rfl rfl]
    show max 0 ((-1 : ℚ)) = 0
    norm_num
  refine ⟨by norm_num [ExponentialBackoff.init], by norm_num [ExponentialBackoff.init],
    rfl, rfl, by rw [counterexample_state1], hval, ?_⟩
  rw [hval]
  norm_num [ExponentialBackoff.init]

/-- The step invariant of the amended C4: parameters are constant,
`current_delay` stays within `[0, max_delay]`, jitter stays off, and
once the reached flag is set `current_delay` equals `max_delay`. -/
def BackoffInv (m : ℚ) (st : Option ℚ) (mult : ℚ) (b : ExponentialBackoff) : Prop :=
  b.max_delay = m ∧ b.stable_delay = st ∧ b.multiplier = mult ∧
  b.jitter = false ∧ 0 ≤ b.current_delay ∧ b.current_delay ≤ m ∧
  (b.has_reached_max = true → b.current_delay = m)

/-- The invariant is preserved by `get_next_delay`. -/
theorem backoffInv_step (m : ℚ) (st : Option ℚ) (mult : ℚ)
    (hmult : 1 ≤ mult) (b : ExponentialBackoff) (u : ℚ)
    (hinv : BackoffInv m st mult b) :
    BackoffInv m st mult (get_next_delay b u).2 := by
  obtain ⟨hm, hst, hmu, hj, hc0, hcm, hrc⟩ := hinv
  cases hr : b.has_reached_max with
  | true =>
    rw [get_next_delay_reached_state b u hr]
    exact ⟨hm, hst, hmu, hj, hc0, hcm, hrc⟩
  | false =>
    subst hm
    subst hst
    subst hmu
    rw [get_next_delay_not_reached b u hr hj]
    refine ⟨rfl, rfl, rfl, hj, ?_, ?_, ?_⟩
    · show 0 ≤ min (b.current_delay * b.multiplier) b.max_delay
      have h1 : 0 ≤ b.current_delay * b.multiplier :=
        mul_nonneg hc0 (le_trans zero_le_one hmult)
      exact le_min h1 (le_trans hc0 hcm)
    · show min (b.current_delay * b.multiplier) b.max_delay ≤ b.max_delay
      exact min_le_right _ _
    · show decide (min (b.current_delay * b.multiplier) b.max_delay ≥ b.max_delay) = true →
        min (b.current_delay * b.multiplier) b.max_delay = b.max_delay
      intro hdec
      exact le_antisymm (min_le_right _ _) (of_decide_eq_true hdec)

/-- The invariant holds along the whole state stream. -/
theorem backoffInv_states (d m mult : ℚ) (st : Option ℚ)
    (hd : 0 ≤ d) (hdm : d ≤ m) (hmult : 1 ≤ mult) :
    ∀ n : Nat, BackoffInv m st mult
      (statesFrom (ExponentialBackoff.init d m st mult false) n) := by
  intro n
  induction n with
  | zero =>
    exact ⟨rfl, rfl, rfl, rfl, hd, hdm,
      by intro h; simp [statesFrom, ExponentialBackoff.init] at h⟩
  | succ k ih => exact backoffInv_step m st mult hmult _ 0 ih

/-- The reached flag never goes back to false. -/
theorem backoff_reached_monotone (b : ExponentialBackoff) (n : Nat)
    (h : (statesFrom b n).has_reached_max = true) :
    (statesFrom b (n + 1)).has_reached_max = true := by
  show (get_next_delay (statesFrom b n) 0).2.has_reached_max = true
  rw [get_next_delay_reached_state _ 0 h]
  exact h

/-- C4 (amended): the claim additionally needs `0 ≤ initial_delay` and
`0 ≤ stable_delay` when the latter is configured (otherwise the
`max(0, delay)` clamp in the code breaks it, see the counterexample).
Under those hypotheses, for the backoff constructed with jitter
disabled, `initial_delay ≤ max_delay` and `multiplier ≥ 1`: successive
delays are non-decreasing while the configured max has not been
reached, and every call made after the max is reached returns
`stable_delay` when configured, and `max_delay` otherwise. -/
theorem C4_backoff_monotone_amended (d m mult : ℚ) (st : Option ℚ)
    (hd : 0 ≤ d) (hdm : d ≤ m) (hmult : 1 ≤ mult)
    (hst : ∀ s, st = some s → 0 ≤ s) :
    (∀ n : Nat,
      (statesFrom (ExponentialBackoff.init d m st mult false) (n + 1)).has_reached_max = false →
      delayAt (ExponentialBackoff.init d m st mult false) n
        ≤ delayAt (ExponentialBackoff.init d m st mult false) (n + 1)) ∧
    (∀ n : Nat,
      (statesFrom (ExponentialBackoff.init d m st mult false) n).has_reached_max = true →
      delayAt (ExponentialBackoff.init d m st mult false) n = st.getD m) := by
  have hinv := backoffInv_states d m mult st hd hdm hmult
  constructor
  · intro n hnr1
    have hnr0 : (statesFrom (ExponentialBackoff.init d m st mult false) n).has_reached_max = false := by
      cases hr : (statesFrom (ExponentialBackoff.init d m st mult false) n).has_reached_max with
      | false => rfl
      | true => rw [backoff_reached_monotone _ n hr] at hnr1; exact absurd hnr1 (by simp)
    obtain ⟨hm0, _, hmu0, hj0, hc00, hcm0, _⟩ := hinv n
    obtain ⟨hm1, _, hmu1, hj1, hc01, hcm1, _⟩ := hinv (n + 1)
    have hval0 : delayAt (ExponentialBackoff.init d m st mult false) n
        = (statesFrom (ExponentialBackoff.init d m st mult false) n).current_delay := by
      unfold delayAt
      rw [get_next_delay_not_reached _ 0 hnr0 hj0]
      exact max_eq_right hc00
    have hval1 : delayAt (ExponentialBackoff.init d m st mult false) (n + 1)
        = (statesFrom (ExponentialBackoff.init d m st mult false) (n + 1)).current_delay := by
      unfold delayAt
      rw [get_next_delay_not_reached _ 0 hnr1 hj1]
      exact max_eq_right hc01
    have hstep : (statesFrom (ExponentialBackoff.init d m st mult false) (n + 1)).current_delay
        = min ((statesFrom (ExponentialBackoff.init d m st mult false) n).current_delay
                * (statesFrom (ExponentialBackoff.init d m st mult false) n).multiplier)
              (statesFrom (ExponentialBackoff.init d m st mult false) n).max_delay := by
      show (get_next_delay (statesFrom (ExponentialBackoff.init d m st mult false) n) 0).2.current_delay = _
      rw [get_next_delay_not_reached _ 0 hnr0 hj0]
    rw [hval0, hval1, hstep]
    refine le_min ?_ ?_
    · have h1m : (1:ℚ) ≤ (statesFrom (ExponentialBackoff.init d m st mult false) n).multiplier := by
        rw [hmu0]; exact hmult
      exact le_mul_of_one_le_right hc00 h1m
    · rw [hm0]
      exact hcm0
  · intro n hr
    obtain ⟨hm0, hst0, _, hj0, hc00, hcm0, hrc0⟩ := hinv n
    unfold delayAt
    rw [get_next_delay_reached_value _ 0 hr hj0, hst0, hrc0 hr]
    cases hcase : st with
    | none => exact max_eq_right (le_trans hc00 hcm0)
    | some s => exact max_eq_right (hst s hcase)

/-- The state of the witness backoff after one call. -/
theorem witness_state1 :
    statesFrom (ExponentialBackoff.init 2 2 none 1 false) 1
      = ⟨2, 2, none, 1, false, 2, true⟩ := by
  show (get_next_delay (ExponentialBackoff.init 2 2 none 1 false) 0).2 = _
  rw [get_next_delay_not_reached _ 0 rfl rfl]
  simp only [ExponentialBackoff.init, ExponentialBackoff.mk.injEq, decide_eq_true_eq]
  norm_num

/-- Witness for C4 (amended): the backoff with initial 2, max 2,
multiplier 1 and no stable_delay reaches the max after the first call
and then returns `max_delay = 2`. -/
theorem C4_backoff_monotone_amended_witness :
    (0 : ℚ) ≤ 2 ∧ (2 : ℚ) ≤ 2 ∧ (1 : ℚ) ≤ 1 ∧
    (statesFrom (ExponentialBackoff.init 2 2 none 1 false) 1).has_reached_max = true ∧
    delayAt (ExponentialBackoff.init 2 2 none 1 false) 1 = (none : Option ℚ).getD 2 :=
  ⟨by norm_num, by norm_num, le_refl 1, by rw [witness_state1],
   (C4_backoff_monotone_amended 2 2 1 none (by norm_num) (by norm_num) (le_refl 1)
     (fun s hs => by simp at hs)).2 1 (by rw [witness_state1])⟩

/-! ## Retry executor (`retry_with_backoff`, `utils.py` lines 191-237)

The fallible operation is modelled as `ops : Nat → Except String α`,
giving the outcome of its `n`-th invocation (`Except.error` models a
raised exception).  The backoff sleeps between attempts do not affect
the returned value; the embedding returns the result together with the
number of invocations performed. -/

/-- The `for attempt in range(max_retries + 1)` loop of
`retry_with_backoff`: `attempt` is the index of the current attempt,
the second argument the number of attempts still allowed after it.  On
`.ok` the loop returns immediately; once attempts are exhausted the
last exception is re-raised (`raise last_exception`). -/
def retryGo {α : Type} (ops : Nat → Except String α) (attempt : Nat) :
    Nat → Except String α × Nat
  | 0 =>
    match ops attempt with
    | .ok a => (.ok a, attempt + 1)
    | .error e => (.error e, attempt + 1)
  | r + 1 =>
    match ops attempt with
    | .ok a => (.ok a, attempt + 1)
    | .error _ => retryGo ops (attempt + 1) r

/-- `retry_with_backoff(func, max_retries=m)`: run the attempt loop
from attempt 0 with `m` retries allowed. -/
def retry_with_backoff {α : Type} (ops : Nat → Except String α)
    (max_retries : Nat) : Except String α × Nat :=
  retryGo ops 0 max_retries

/-- The attempt loop performs at most `remaining + 1` invocations
past `attempt`. -/
theorem retryGo_count_le {α : Type} (ops : Nat → Except String α) :
    ∀ (r a : Nat), (retryGo ops a r).2 ≤ a + r + 1 := by
  intro r
  induction r with
  | zero =>
    intro a
    cases h : ops a <;> simp [retryGo, h]
  | succ k ih =>
    intro a
    cases h : ops a with
    | ok v => simp [retryGo, h]
    | error e =>
      have := ih (a + 1)
      simp only [retryGo, h]
      omega

/-- If the invocation at offset `k` succeeds and all earlier ones fail,
the attempt loop returns that success after exactly `k + 1` further
invocations. -/
theorem retryGo_first_success {α : Type} (ops : Nat → Except String α) :
    ∀ (k r a : Nat) (v : α), k ≤ r → ops (a + k) = .ok v →
      (∀ j, j < k → ∃ e, ops (a + j) = .error e) →
      retryGo ops a r = (.ok v, a + k + 1) := by
  intro k
  induction k with
  | zero =>
    intro r a v _ hok _
    cases r with
    | zero => simp [retryGo, show ops a = .ok v from hok]
    | succ r' => simp [retryGo, show ops a = .ok v from hok]
  | succ k' ih =>
    intro r a v hkr hok hfail
    obtain ⟨e, he⟩ := hfail 0 (Nat.succ_pos k')
    cases r with
    | zero => omega
    | succ r' =>
      have hstep : retryGo ops a (r' + 1) = retryGo ops (a + 1) r' := by
        simp [retryGo, show ops a = .error e from he]
      rw [hstep]
      have hok' : ops ((a + 1) + k') = .ok v := by
        have : (a + 1) + k' = a + (k' + 1) := by omega
        rw [this]; exact hok
      have hfail' : ∀ j, j < k' → ∃ d, ops ((a + 1) + j) = .error d := by
        intro j hj
        have : (a + 1) + j = a + (j + 1) := by omega
        rw [this]
        exact hfail (j + 1) (by omega)
      have := ih r' (a + 1) v (by omega) hok' hfail'
      rw [this]
      congr 1
      omega

/-- If every invocation up to offset `r` fails, the attempt loop
returns the failure of the last one after `r + 1` invocations. -/
theorem retryGo_all_fail {α : Type} (ops : Nat → Except String α) :
    ∀ (r a : Nat) (e : String), (∀ k, k ≤ r → ∃ d, ops (a + k) = .error d) →
      ops (a + r) = .error e → retryGo ops a r = (.error e, a + r + 1) := by
  intro r
  induction r with
  | zero =>
    intro a e _ hlast
    simp [retryGo, show ops a = .error e from hlast]
  | succ k ih =>
    intro a e hall hlast
    obtain ⟨d, hd⟩ := hall 0 (Nat.zero_le _)
    have hstep : retryGo ops a (k + 1) = retryGo ops (a + 1) k := by
      simp [retryGo, show ops a = .error d from hd]
    rw [hstep]
    have hall' : ∀ j, j ≤ k → ∃ d', ops ((a + 1) + j) = .error d' := by
      intro j hj
      have : (a + 1) + j = a + (j + 1) := by omega
      rw [this]
      exact hall (j + 1) (by omega)
    have hlast' : ops ((a + 1) + k) = .error e := by
      have : (a + 1) + k = a + (k + 1) := by omega
      rw [this]; exact hlast
    have := ih (a + 1) e hall' hlast'
    rw [this]
    congr 1
    omega

/-- C5: `retry_with_backoff` invokes the operation at most
`max_retries + 1` times; if attempt `k` (`k ≤ max_retries`) is the
first to succeed it returns that attempt's result having performed
exactly `k + 1` invocations; and if all `max_retries + 1` attempts
fail it re-raises the exception of the final attempt. -/
theorem C5_retry_with_backoff_spec (α : Type) (ops : Nat → Except String α)
    (max_retries : Nat) :
    (retry_with_backoff ops max_retries).2 ≤ max_retries + 1 ∧
    (∀ k v, k ≤ max_retries → ops k = .ok v →
      (∀ j, j < k → ∃ e, ops j = .error e) →
      retry_with_backoff ops max_retries = (.ok v, k + 1)) ∧
    (∀ e, (∀ k, k ≤ max_retries → ∃ d, ops k = .error d) →
      ops max_retries = .error e →
      retry_with_backoff ops max_retries = (.error e, max_retries + 1)) := by
  refine ⟨?_, ?_, ?_⟩
  · have := retryGo_count_le ops max_retries 0
    simpa [retry_with_backoff] using this
  · intro k v hk hok hfail
    have := retryGo_first_success ops k max_retries 0 v hk
      (by simpa using hok) (by simpa using hfail)
    simpa [retry_with_backoff] using this
  · intro e hall hlast
    have := retryGo_all_fail ops max_retries 0 e
      (by simpa using hall) (by simpa using hlast)
    simpa [retry_with_backoff] using this

/-- Witness for C5: attempt 0 fails, attempt 1 succeeds with 42; the
executor returns 42 after 2 invocations. -/
theorem C5_retry_with_backoff_spec_witness :
    (1 : Nat) ≤ 3 ∧
    retry_with_backoff (fun n => if n = 0 then .error "e0" else .ok 42) 3
      = (.ok 42, 2) :=
  ⟨by omega,
   (C5_retry_with_backoff_spec Nat (fun n => if n = 0 then .error "e0" else .ok 42) 3).2.1
     1 42 (by omega) (by simp)
     (fun j hj => ⟨"e0", by interval_cases j; simp⟩)⟩

/-! ## Polling orchestrator and completion processor (`service.py`)

`poll_job_status` and `process_job_completion` interact with the
outside world (the Kiri client, the clock, the filesystem); the
registry writes they perform are a pure function of the sequence of
environment outcomes.  One loop iteration's environment outcome is a
`PollEvent`; the completion processor's outcome is a
`CompletionEvent`.  Each function is embedded as the list of
`update_job_status` calls (`Write`s) it makes for the given events,
together with a flag telling whether the loop terminated (`return`)
within the supplied events. -/

/-- One `update_job_status(job_id, status, error=..., usdz_url=...)`
call made for the job being polled. -/
structure Write where
  status : JobStatus
  error : Option String
  usdz_url : Option String
deriving DecidableEq, Repr

/-- `upload_usdz_placeholder` (`service.py` lines 25-40): the fake
public URL for the extracted artifact. -/
def upload_usdz_placeholder (job_id : String) : String :=
  "https://fake-supabase-url.com/usdz/" ++ job_id ++ ".usdz"

/-- Environment outcome of one `process_job_completion` run: an
exception raised inside its `try` block, one of the three handled
failure checks, or full success. -/
inductive CompletionEvent where
  | raises (msg : String)
  | zipUrlMissing
  | downloadFail
  | extractFail
  | ok
deriving DecidableEq, Repr

/-- The registry writes of `process_job_completion` (`service.py`
lines 65-128) for a given environment outcome.  Every path performs
exactly one write: FAILED with an error message on each failure path
(the catch-all `except` included), SUCCESS with the placeholder URL
on the success path. -/
def process_job_completion (job_id : String) : CompletionEvent → List Write
  | .raises msg =>
    [⟨.FAILED, some ("Error processing job completion: " ++ msg), none⟩]
  | .zipUrlMissing =>
    [⟨.FAILED, some "Failed to get model zip URL from Kiri Engine", none⟩]
  | .downloadFail =>
    [⟨.FAILED, some "Failed to download model ZIP file", none⟩]
  | .extractFail =>
    [⟨.FAILED, some "Failed to extract USDZ file from ZIP", none⟩]
  | .ok =>
    [⟨.SUCCESS, none, some (upload_usdz_placeholder job_id)⟩]

/-- Environment outcome of one iteration of the `while True` loop of
`poll_job_status`: the wall-clock timeout check trips; an exception is
raised inside the loop body (e.g. the retry executor exhausts its
attempts and re-raises); the status response reports failure; the
response lacks the status field; or a provider status code arrives
(with the completion outcome used if the mapped status is SUCCESS). -/
inductive PollEvent where
  | timeout
  | raises (msg : String)
  | queryNotSuccess
  | statusMissing
  | status (code : Int) (comp : CompletionEvent)
deriving DecidableEq, Repr

/-- The registry writes of one iteration of the `poll_job_status` loop
(`service.py` lines 146-204), together with `true` when the loop
continues to the next iteration and `false` when it returns.  The
rendering of the enum member inside the `Job failed with status:`
f-string uses the member's value; its exact text is irrelevant to the
claims. -/
def poll_step (job_id : String) (timeout_minutes : Nat) :
    PollEvent → List Write × Bool
  | .timeout =>
    ([⟨.FAILED, some ("Job polling timed out after "
        ++ toString timeout_minutes ++ " minutes"), none⟩], false)
  | .raises msg =>
    ([⟨.FAILED, some ("Error polling job status: " ++ msg), none⟩], false)
  | .queryNotSuccess =>
    ([⟨.FAILED, some "Failed to get job status from Kiri Engine", none⟩], false)
  | .statusMissing =>
    ([⟨.FAILED, some "Invalid status response from Kiri Engine", none⟩], false)
  | .status code comp =>
    let job_status := map_kiri_status_to_job_status code
    if job_status = .SUCCESS then
      (⟨job_status, none, none⟩ :: process_job_completion job_id comp, false)
    else if job_status = .FAILED ∨ job_status = .EXPIRED then
      ([⟨job_status, none, none⟩,
        ⟨job_status, some ("Job failed with status: " ++ job_status.value), none⟩],
       false)
    else
      ([⟨job_status, none, none⟩], true)

/-- `poll_job_status` for a finite list of environment outcomes: the
concatenated writes and whether the loop returned within them (`false`
means the supplied events ran out while the job was still polling). -/
def poll_job_status (job_id : String) (timeout_minutes : Nat) :
    List PollEvent → List Write × Bool
  | [] => ([], false)
  | e :: rest =>
    match poll_step job_id timeout_minutes e with
    | (ws, true) =>
      let r := poll_job_status job_id timeout_minutes rest
      (ws ++ r.1, r.2)
    | (ws, false) => (ws, true)

/-- Applying one registry write to the job's record: exactly
`update_job_status`'s effect on the record (`applyUpdate`). -/
def applyWrite (j : KiriJobData) (w : Write) : KiriJobData :=
  applyUpdate j w.status w.error w.usdz_url

/-- The record made by `JobStore.create_job` (`store.py` lines 20-41):
initial status QUEUED, no error, no url. -/
def create_job (job_id kiri_serialize : String) (now : ℚ) : KiriJobData :=
  ⟨job_id, .QUEUED, none, none, some kiri_serialize, now⟩

/-- The job's record after a prefix of the registry writes. -/
def record_after (j : KiriJobData) (ws : List Write) : KiriJobData :=
  ws.foldl applyWrite j

/-- The claimed invariant of C1. -/
def url_iff_success (j : KiriJobData) : Prop :=
  j.usdzUrl ≠ none ↔ j.status = JobStatus.SUCCESS

/-- Case split for a prefix of a cons. -/
theorem prefix_cons_cases {α : Type} (x : α) (l pre : List α)
    (h : pre <+: x :: l) :
    pre = [] ∨ ∃ pre', pre = x :: pre' ∧ pre' <+: l := by
  cases pre with
  | nil => exact Or.inl rfl
  | cons y ys =>
    obtain ⟨t, ht⟩ := h
    rw [List.cons_append] at ht
    injection ht with h1 h2
    exact Or.inr ⟨ys, by rw [h1], ⟨t, h2⟩⟩

/-- A run of url-free writes cannot set the record's usdzUrl. -/
theorem record_after_url_none (ws : List Write) :
    ∀ j : KiriJobData, j.usdzUrl = none → (∀ w ∈ ws, w.usdz_url = none) →
      (record_after j ws).usdzUrl = none := by
  induction ws with
  | nil => intro j hj _; exact hj
  | cons w t ih =>
    intro j hj hall
    have hw : w.usdz_url = none := hall w (List.mem_cons_self w t)
    have hj' : (applyWrite j w).usdzUrl = none := by
      simp [applyWrite, applyUpdate, hw, hj]
    exact ih (applyWrite j w) hj' (fun w' hw' => hall w' (List.mem_cons_of_mem w hw'))

/-- The only write carrying a usdz_url in any polling trace is the
completion processor's final SUCCESS write, and it closes the trace:
every prefix of a trace's writes either consists of url-free writes or
ends exactly with that SUCCESS write. -/
theorem poll_prefix_shape (job_id : String) (tm : Nat) :
    ∀ (events : List PollEvent) (pre : List Write),
      pre <+: (poll_job_status job_id tm events).1 →
      (∀ w ∈ pre, w.usdz_url = none) ∨
      ∃ pre0, pre = pre0 ++ [⟨.SUCCESS, none, some (upload_usdz_placeholder job_id)⟩] ∧
        ∀ w ∈ pre0, w.usdz_url = none := by
  intro events
  induction events with
  | nil =>
    intro pre h
    left
    have hnil : pre = [] := List.prefix_nil.mp (by simpa [poll_job_status] using h)
    subst hnil
    simp
  | cons e rest ih =>
    intro pre h
    cases e with
    | timeout =>
      left
      intro w hw
      have hsub := h.subset hw
      simp [poll_job_status, poll_step] at hsub
      rw [hsub]
    | raises msg =>
      left
      intro w hw
      have hsub := h.subset hw
      simp [poll_job_status, poll_step] at hsub
      rw [hsub]
    | queryNotSuccess =>
      left
      intro w hw
      have hsub := h.subset hw
      simp [poll_job_status, poll_step] at hsub
      rw [hsub]
    | statusMissing =>
      left
      intro w hw
      have hsub := h.subset hw
      simp [poll_job_status, poll_step] at hsub
      rw [hsub]
    | status code comp =>
      cases hmap : map_kiri_status_to_job_status code with
      | SUCCESS =>
        cases comp with
        | ok =>
          rw [show (poll_job_status job_id tm (PollEvent.status code CompletionEvent.ok :: rest)).1
              = [⟨.SUCCESS, none, none⟩,
                 ⟨.SUCCESS, none, some (upload_usdz_placeholder job_id)⟩] by
            simp [poll_job_status, poll_step, hmap, process_job_completion]] at h
          rcases prefix_cons_cases _ _ _ h with hpre | ⟨pre', hpre, h'⟩
          · left; subst hpre; simp
          · rcases prefix_cons_cases _ _ _ h' with hpre' | ⟨pre'', hpre', h''⟩
            · left
              subst hpre'
              subst hpre
              intro w hw
              simp at hw
              rw [hw]
            · have hnil : pre'' = [] := List.prefix_nil.mp h''
              subst hnil
              subst hpre'
              subst hpre
              right
              refine ⟨[⟨.SUCCESS, none, none⟩], rfl, ?_⟩
              intro w hw
              simp at hw
              rw [hw]
        | raises msg =>
          left
          intro w hw
          have hsub := h.subset hw
          simp [poll_job_status, poll_step, hmap, process_job_completion] at hsub
          rcases hsub with hsub | hsub <;> rw [hsub]
        | zipUrlMissing =>
          left
          intro w hw
          have hsub := h.subset hw
          simp [poll_job_status, poll_step, hmap, process_job_completion] at hsub
          rcases hsub with hsub | hsub <;> rw [hsub]
        | downloadFail =>
          left
          intro w hw
          have hsub := h.subset hw
          simp [poll_job_status, poll_step, hmap, process_job_completion] at hsub
          rcases hsub with hsub | hsub <;> rw [hsub]
        | extractFail =>
          left
          intro w hw
          have hsub := h.subset hw
          simp [poll_job_status, poll_step, hmap, process_job_completion] at hsub
          rcases hsub with hsub | hsub <;> rw [hsub]
      | FAILED =>
        left
        intro w hw
        have hsub := h.subset hw
        simp [poll_job_status, poll_step, hmap] at hsub
        rcases hsub with hsub | hsub <;> rw [hsub]
      | EXPIRED =>
        left
        intro w hw
        have hsub := h.subset hw
        simp [poll_job_status, poll_step, hmap] at hsub
        rcases hsub with hsub | hsub <;> rw [hsub]
      | UPLOADING =>
        rw [show (poll_job_status job_id tm (PollEvent.status code comp :: rest)).1
            = ⟨.UPLOADING, none, none⟩ :: (poll_job_status job_id tm rest).1 by
          simp [poll_job_status, poll_step, hmap]] at h
        rcases prefix_cons_cases _ _ _ h with hpre | ⟨pre', hpre, h'⟩
        · left; subst hpre; simp
        · rcases ih pre' h' with hall | ⟨pre0, heq, hall⟩
          · left
            subst hpre
            intro w hw
            rcases List.mem_cons.mp hw with hw | hw
            · rw [hw]
            · exact hall w hw
          · right
            refine ⟨⟨.UPLOADING, none, none⟩ :: pre0, by rw [hpre, heq]; rfl, ?_⟩
            intro w hw
            rcases List.mem_cons.mp hw with hw | hw
            · rw [hw]
            · exact hall w hw
      | PROCESSING =>
        rw [show (poll_job_status job_id tm (PollEvent.status code comp :: rest)).1
            = ⟨.PROCESSING, none, none⟩ :: (poll_job_status job_id tm rest).1 by
          simp [poll_job_status, poll_step, hmap]] at h
        rcases prefix_cons_cases _ _ _ h with hpre | ⟨pre', hpre, h'⟩
        · left; subst hpre; simp
        · rcases ih pre' h' with hall | ⟨pre0, heq, hall⟩
          · left
            subst hpre
            intro w hw
            rcases List.mem_cons.mp hw with hw | hw
            · rw [hw]
            · exact hall w hw
          · right
            refine ⟨⟨.PROCESSING, none, none⟩ :: pre0, by rw [hpre, heq]; rfl, ?_⟩
            intro w hw
            rcases List.mem_cons.mp hw with hw | hw
            · rw [hw]
            · exact hall w hw
      | QUEUED =>
        rw [show (poll_job_status job_id tm (PollEvent.status code comp :: rest)).1
            = ⟨.QUEUED, none, none⟩ :: (poll_job_status job_id tm rest).1 by
          simp [poll_job_status, poll_step, hmap]] at h
        rcases prefix_cons_cases _ _ _ h with hpre | ⟨pre', hpre, h'⟩
        · left; subst hpre; simp
        · rcases ih pre' h' with hall | ⟨pre0, heq, hall⟩
          · left
            subst hpre
            intro w hw
            rcases List.mem_cons.mp hw with hw | hw
            · rw [hw]
            · exact hall w hw
          · right
            refine ⟨⟨.QUEUED, none, none⟩ :: pre0, by rw [hpre, heq]; rfl, ?_⟩
            intro w hw
            rcases List.mem_cons.mp hw with hw | hw
            · rw [hw]
            · exact hall w hw

/-- When the polling loop terminates within the supplied events, the
record satisfies the url-iff-success invariant at the end of the
trace. -/
theorem poll_final_state (job_id : String) (tm : Nat) :
    ∀ (events : List PollEvent) (j : KiriJobData), j.usdzUrl = none →
      (poll_job_status job_id tm events).2 = true →
      url_iff_success (record_after j (poll_job_status job_id tm events).1) := by
  intro events
  induction events with
  | nil =>
    intro j hj hfin
    simp [poll_job_status] at hfin
  | cons e rest ih =>
    intro j hj hfin
    cases e with
    | timeout =>
      simp [poll_job_status, poll_step, record_after, applyWrite, applyUpdate,
        url_iff_success, hj]
    | raises msg =>
      simp [poll_job_status, poll_step, record_after, applyWrite, applyUpdate,
        url_iff_success, hj]
    | queryNotSuccess =>
      simp [poll_job_status, poll_step, record_after, applyWrite, applyUpdate,
        url_iff_success, hj]
    | statusMissing =>
      simp [poll_job_status, poll_step, record_after, applyWrite, applyUpdate,
        url_iff_success, hj]
    | status code comp =>
      cases hmap : map_kiri_status_to_job_status code with
      | SUCCESS =>
        cases comp with
        | ok =>
          simp [poll_job_status, poll_step, hmap, process_job_completion,
            record_after, applyWrite, applyUpdate, url_iff_success]
        | raises msg =>
          simp [poll_job_status, poll_step, hmap, process_job_completion,
            record_after, applyWrite, applyUpdate, url_iff_success, hj]
        | zipUrlMissing =>
          simp [poll_job_status, poll_step, hmap, process_job_completion,
            record_after, applyWrite, applyUpdate, url_iff_success, hj]
        | downloadFail =>
          simp [poll_job_status, poll_step, hmap, process_job_completion,
            record_after, applyWrite, applyUpdate, url_iff_success, hj]
        | extractFail =>
          simp [poll_job_status, poll_step, hmap, process_job_completion,
            record_after, applyWrite, applyUpdate, url_iff_success, hj]
      | FAILED =>
        simp [poll_job_status, poll_step, hmap, record_after, applyWrite,
          applyUpdate, url_iff_success, hj]
      | EXPIRED =>
        simp [poll_job_status, poll_step, hmap, record_after, applyWrite,
          applyUpdate, url_iff_success, hj]
      | UPLOADING =>
        have hpoll : poll_job_status job_id tm (PollEvent.status code comp :: rest)
            = (⟨.UPLOADING, none, none⟩ :: (poll_job_status job_id tm rest).1,
               (poll_job_status job_id tm rest).2) := by
          simp [poll_job_status, poll_step, hmap]
        rw [hpoll] at hfin ⊢
        have hj' : (applyWrite j ⟨.UPLOADING, none, none⟩).usdzUrl = none := by
          simp [applyWrite, applyUpdate, hj]
        exact ih (applyWrite j ⟨.UPLOADING, none, none⟩) hj' hfin
      | PROCESSING =>
        have hpoll : poll_job_status job_id tm (PollEvent.status code comp :: rest)
            = (⟨.PROCESSING, none, none⟩ :: (poll_job_status job_id tm rest).1,
               (poll_job_status job_id tm rest).2) := by
          simp [poll_job_status, poll_step, hmap]
        rw [hpoll] at hfin ⊢
        have hj' : (applyWrite j ⟨.PROCESSING, none, none⟩).usdzUrl = none := by
          simp [applyWrite, applyUpdate, hj]
        exact ih (applyWrite j ⟨.PROCESSING, none, none⟩) hj' hfin
      | QUEUED =>
        have hpoll : poll_job_status job_id tm (PollEvent.status code comp :: rest)
            = (⟨.QUEUED, none, none⟩ :: (poll_job_status job_id tm rest).1,
               (poll_job_status job_id tm rest).2) := by
          simp [poll_job_status, poll_step, hmap]
        rw [hpoll] at hfin ⊢
        have hj' : (applyWrite j ⟨.QUEUED, none, none⟩).usdzUrl = none := by
          simp [applyWrite, applyUpdate, hj]
        exact ih (applyWrite j ⟨.QUEUED, none, none⟩) hj' hfin

/-- C1 fails as stated: with the provider reporting status code 2
(SUCCESS), the orchestrator's own write at `service.py` line 182
(status only, no usdz_url) is an observable registry write after which
the record has status SUCCESS and a null usdzUrl — so the "non-null
iff SUCCESS" invariant is violated at that point. -/
theorem C1_url_iff_success_counterexample :
    ((poll_job_status "j" 45 [.status 2 .ok]).1.take 1)
      <+: (poll_job_status "j" 45 [.status 2 .ok]).1 ∧
    (record_after (create_job "j" "s" 0)
        ((poll_job_status "j" 45 [.status 2 .ok]).1.take 1)).status
      = JobStatus.SUCCESS ∧
    (record_after (create_job "j" "s" 0)
        ((poll_job_status "j" 45 [.status 2 .ok]).1.take 1)).usdzUrl = none ∧
    ¬ url_iff_success (record_after (create_job "j" "s" 0)
        ((poll_job_status "j" 45 [.status 2 .ok]).1.take 1)) := by
  refine ⟨ List.take_prefix 1 _, rfl, rfl, ?_⟩
  intro hiff
  have := hiff.mpr rfl
  exact this rfl

/-- C1 (amended): at every observable point (after any prefix of the
registry writes of a polling run), a non-null usdzUrl implies status
SUCCESS; and whenever the polling run has terminated, the full
equivalence (usdzUrl non-null iff status SUCCESS) holds of the final
record.  The equivalence fails only at the intermediate points between
the orchestrator's provisional SUCCESS write and the completion
processor's final write (see the counterexample). -/
theorem C1_url_iff_success_amended (job_id kiri_serialize : String)
    (t : ℚ) (tm : Nat) (events : List PollEvent) :
    (∀ pre, pre <+: (poll_job_status job_id tm events).1 →
      (record_after (create_job job_id kiri_serialize t) pre).usdzUrl ≠ none →
      (record_after (create_job job_id kiri_serialize t) pre).status
        = JobStatus.SUCCESS) ∧
    ((poll_job_status job_id tm events).2 = true →
      url_iff_success (record_after (create_job job_id kiri_serialize t)
        (poll_job_status job_id tm events).1)) := by
  constructor
  · intro pre hpre hurl
    rcases poll_prefix_shape job_id tm events pre hpre with hall | ⟨pre0, heq, hall⟩
    · exact absurd (record_after_url_none pre _ rfl hall) hurl
    · subst heq
      show ((pre0 ++ [(⟨.SUCCESS, none, some (upload_usdz_placeholder job_id)⟩ : Write)]).foldl
        applyWrite (create_job job_id kiri_serialize t)).status = JobStatus.SUCCESS
      rw [List.foldl_append]
      rfl
  · exact poll_final_state job_id tm events (create_job job_id kiri_serialize t) rfl

/-- Witness for C1 (amended): part one applied at the one-write prefix
of a failing run, part two at that run's (terminated) full trace. -/
theorem C1_url_iff_success_amended_witness :
    (poll_job_status "j" 45 [.status 1 .ok]).2 = true ∧
    url_iff_success (record_after (create_job "j" "s" 0)
      (poll_job_status "j" 45 [.status 1 .ok]).1) :=
  ⟨rfl, (C1_url_iff_success_amended "j" "s" 0 45 [.status 1 .ok]).2 rfl⟩

/-- A registry write of an in-progress status, made at line 182 of
`service.py` by an iteration that loops again. -/
def MidWrite (w : Write) : Prop :=
  w.status = JobStatus.UPLOADING ∨ w.status = JobStatus.PROCESSING ∨
  w.status = JobStatus.QUEUED

/-- The possible closing write sequences of a polling run: nothing
(events exhausted mid-poll), a single FAILED write (timeout, caught
exception, failed or invalid status response), the double FAILED or
EXPIRED write of lines 182+192, the provisional SUCCESS write followed
by a completion-processor FAILED write, or the provisional SUCCESS
write followed by the completion processor's final SUCCESS write. -/
def TerminalTail (job_id : String) (tail : List Write) : Prop :=
  tail = [] ∨
  (∃ msg, tail = [⟨JobStatus.FAILED, some msg, none⟩]) ∨
  (∃ msg, tail = [⟨JobStatus.FAILED, none, none⟩,
                  ⟨JobStatus.FAILED, some msg, none⟩]) ∨
  (∃ msg, tail = [⟨JobStatus.EXPIRED, none, none⟩,
                  ⟨JobStatus.EXPIRED, some msg, none⟩]) ∨
  (∃ msg, tail = [⟨JobStatus.SUCCESS, none, none⟩,
                  ⟨JobStatus.FAILED, some msg, none⟩]) ∨
  tail = [⟨JobStatus.SUCCESS, none, none⟩,
          ⟨JobStatus.SUCCESS, none, some (upload_usdz_placeholder job_id)⟩]

/-- Every polling trace is a run of in-progress writes followed by one
of the closing shapes. -/
theorem poll_trace_shape (job_id : String) (tm : Nat) :
    ∀ events : List PollEvent, ∃ mid tail,
      (poll_job_status job_id tm events).1 = mid ++ tail ∧
      (∀ w ∈ mid, MidWrite w) ∧ TerminalTail job_id tail := by
  intro events
  induction events with
  | nil =>
    exact ⟨[], [], by simp [poll_job_status], by simp, Or.inl rfl⟩
  | cons e rest ih =>
    cases e with
    | timeout =>
      refine ⟨[], [⟨JobStatus.FAILED, some ("Job polling timed out after "
          ++ toString tm ++ " minutes"), none⟩],
        by simp [poll_job_status, poll_step], by simp, ?_⟩
      exact Or.inr (Or.inl ⟨_, rfl⟩)
    | raises msg =>
      refine ⟨[], [⟨JobStatus.FAILED, some ("Error polling job status: " ++ msg), none⟩],
        by simp [poll_job_status, poll_step], by simp, ?_⟩
      exact Or.inr (Or.inl ⟨_, rfl⟩)
    | queryNotSuccess =>
      refine ⟨[], [⟨JobStatus.FAILED, some "Failed to get job status from Kiri Engine", none⟩],
        by simp [poll_job_status, poll_step], by simp, ?_⟩
      exact Or.inr (Or.inl ⟨_, rfl⟩)
    | statusMissing =>
      refine ⟨[], [⟨JobStatus.FAILED, some "Invalid status response from Kiri Engine", none⟩],
        by simp [poll_job_status, poll_step], by simp, ?_⟩
      exact Or.inr (Or.inl ⟨_, rfl⟩)
    | status code comp =>
      cases hmap : map_kiri_status_to_job_status code with
      | FAILED =>
        refine ⟨[], [⟨JobStatus.FAILED, none, none⟩,
            ⟨JobStatus.FAILED, some ("Job failed with status: "
              ++ JobStatus.FAILED.value), none⟩],
          by simp [poll_job_status, poll_step, hmap], by simp, ?_⟩
        exact Or.inr (Or.inr (Or.inl ⟨_, rfl⟩))
      | EXPIRED =>
        refine ⟨[], [⟨JobStatus.EXPIRED, none, none⟩,
            ⟨JobStatus.EXPIRED, some ("Job failed with status: "
              ++ JobStatus.EXPIRED.value), none⟩],
          by simp [poll_job_status, poll_step, hmap], by simp, ?_⟩
        exact Or.inr (Or.inr (Or.inr (Or.inl ⟨_, rfl⟩)))
      | SUCCESS =>
        cases comp with
        | ok =>
          refine ⟨[], [⟨JobStatus.SUCCESS, none, none⟩,
              ⟨JobStatus.SUCCESS, none, some (upload_usdz_placeholder job_id)⟩],
            by simp [poll_job_status, poll_step, hmap, process_job_completion],
            by simp, ?_⟩
          exact Or.inr (Or.inr (Or.inr (Or.inr (Or.inr rfl))))
        | raises msg =>
          refine ⟨[], [⟨JobStatus.SUCCESS, none, none⟩,
              ⟨JobStatus.FAILED, some ("Error processing job completion: " ++ msg), none⟩],
            by simp [poll_job_status, poll_step, hmap, process_job_completion],
            by simp, ?_⟩
          exact Or.inr (Or.inr (Or.inr (Or.inr (Or.inl ⟨_, rfl⟩))))
        | zipUrlMissing =>
          refine ⟨[], [⟨JobStatus.SUCCESS, none, none⟩,
              ⟨JobStatus.FAILED, some "Failed to get model zip URL from Kiri Engine", none⟩],
            by simp [poll_job_status, poll_step, hmap, process_job_completion],
            by simp, ?_⟩
          exact Or.inr (Or.inr (Or.inr (Or.inr (Or.inl ⟨_, rfl⟩))))
        | downloadFail =>
          refine ⟨[], [⟨JobStatus.SUCCESS, none, none⟩,
              ⟨JobStatus.FAILED, some "Failed to download model ZIP file", none⟩],
            by simp [poll_job_status, poll_step, hmap, process_job_completion],
            by simp, ?_⟩
          exact Or.inr (Or.inr (Or.inr (Or.inr (Or.inl ⟨_, rfl⟩))))
        | extractFail =>
          refine ⟨[], [⟨JobStatus.SUCCESS, none, none⟩,
              ⟨JobStatus.FAILED, some "Failed to extract USDZ file from ZIP", none⟩],
            by simp [poll_job_status, poll_step, hmap, process_job_completion],
            by simp, ?_⟩
          exact Or.inr (Or.inr (Or.inr (Or.inr (Or.inl ⟨_, rfl⟩))))
      | UPLOADING =>
        obtain ⟨mid, tail, heq, hmid, htail⟩ := ih
        refine ⟨⟨.UPLOADING, none, none⟩ :: mid, tail, ?_, ?_, htail⟩
        · simp [poll_job_status, poll_step, hmap, heq]
        · intro w hw
          rcases List.mem_cons.mp hw with hw | hw
          · rw [hw]; exact Or.inl rfl
          · exact hmid w hw
      | PROCESSING =>
        obtain ⟨mid, tail, heq, hmid, htail⟩ := ih
        refine ⟨⟨.PROCESSING, none, none⟩ :: mid, tail, ?_, ?_, htail⟩
        · simp [poll_job_status, poll_step, hmap, heq]
        · intro w hw
          rcases List.mem_cons.mp hw with hw | hw
          · rw [hw]; exact Or.inr (Or.inl rfl)
          · exact hmid w hw
      | QUEUED =>
        obtain ⟨mid, tail, heq, hmid, htail⟩ := ih
        refine ⟨⟨.QUEUED, none, none⟩ :: mid, tail, ?_, ?_, htail⟩
        · simp [poll_job_status, poll_step, hmap, heq]
        · intro w hw
          rcases List.mem_cons.mp hw with hw | hw
          · rw [hw]; exact Or.inr (Or.inr rfl)
          · exact hmid w hw

/-- Index lookup in a two-element list. -/
theorem getElem?_pair {α : Type} (a b x : α) (n : Nat)
    (h : ([a, b] : List α)[n]? = some x) :
    (n = 0 ∧ x = a) ∨ (n = 1 ∧ x = b) := by
  match n with
  | 0 => simp at h; exact Or.inl ⟨rfl, h.symm⟩
  | 1 => simp at h; exact Or.inr ⟨rfl, h.symm⟩
  | n + 2 => simp at h

/-- Index lookup in a one-element list. -/
theorem getElem?_single {α : Type} (a x : α) (n : Nat)
    (h : ([a] : List α)[n]? = some x) : n = 0 ∧ x = a := by
  match n with
  | 0 => simp at h; exact ⟨rfl, h.symm⟩
  | n + 1 => simp at h

/-- C2 fails as stated: when the provider reports code 2 (SUCCESS) and
the completion processor's download then fails, the orchestrator first
writes the terminal status SUCCESS (line 182 of `service.py`) and the
completion processor subsequently writes FAILED — a registry write
that changes an already-written terminal status. -/
theorem C2_terminal_stability_counterexample :
    isTerminal JobStatus.SUCCESS = true ∧
    (poll_job_status "j" 45 [.status 2 .downloadFail]).1[0]?
      = some ⟨JobStatus.SUCCESS, none, none⟩ ∧
    (poll_job_status "j" 45 [.status 2 .downloadFail]).1[1]?
      = some ⟨JobStatus.FAILED, some "Failed to download model ZIP file", none⟩ ∧
    JobStatus.FAILED ≠ JobStatus.SUCCESS := by
  refine ⟨rfl, rfl, rfl, ?_⟩
  intro h
  exact JobStatus.noConfusion h

/-- C2 (amended): once FAILED or EXPIRED has been written for a job,
every subsequent registry write of the run carries that same status;
and the completion processor's SUCCESS-with-url write is always the
final write of the run.  Only the orchestrator's provisional SUCCESS
write (made before handing off to the completion processor) can be
followed by a different status, namely FAILED when completion
processing fails (see the counterexample). -/
theorem C2_terminal_stability_amended (job_id : String) (tm : Nat)
    (events : List PollEvent) :
    (∀ (i k : Nat) (wi wk : Write),
      (poll_job_status job_id tm events).1[i]? = some wi →
      (poll_job_status job_id tm events).1[k]? = some wk →
      i ≤ k →
      (wi.status = JobStatus.FAILED ∨ wi.status = JobStatus.EXPIRED) →
      wk.status = wi.status) ∧
    (∀ (i : Nat) (wi : Write),
      (poll_job_status job_id tm events).1[i]? = some wi →
      wi.usdz_url ≠ none →
      i = (poll_job_status job_id tm events).1.length - 1) := by
  constructor
  · obtain ⟨mid, tail, heq, hmid, htail⟩ := poll_trace_shape job_id tm events
    intro i k wi wk hi hk hik hterm
    rw [heq] at hi hk
    have hiL : mid.length ≤ i := by
      by_contra hlt
      push_neg at hlt
      rw [List.getElem?_append_left hlt] at hi
      have hmem := List.getElem?_mem hi
      rcases hmid wi hmem with h' | h' | h' <;> rw [h'] at hterm <;>
        rcases hterm with h'' | h'' <;> exact JobStatus.noConfusion h''
    have hkL : mid.length ≤ k := le_trans hiL hik
    rw [List.getElem?_append_right hiL] at hi
    rw [List.getElem?_append_right hkL] at hk
    have hik' : i - mid.length ≤ k - mid.length := by omega
    rcases htail with h | ⟨msg, h⟩ | ⟨msg, h⟩ | ⟨msg, h⟩ | ⟨msg, h⟩ | h
    · rw [h] at hi
      simp at hi
    · rw [h] at hi hk
      obtain ⟨_, hwi⟩ := getElem?_single _ _ _ hi
      obtain ⟨_, hwk⟩ := getElem?_single _ _ _ hk
      rw [hwi, hwk]
    · rw [h] at hi hk
      rcases getElem?_pair _ _ _ _ hi with ⟨_, hwi⟩ | ⟨_, hwi⟩ <;>
        rcases getElem?_pair _ _ _ _ hk with ⟨_, hwk⟩ | ⟨_, hwk⟩ <;>
        rw [hwi, hwk]
    · rw [h] at hi hk
      rcases getElem?_pair _ _ _ _ hi with ⟨_, hwi⟩ | ⟨_, hwi⟩ <;>
        rcases getElem?_pair _ _ _ _ hk with ⟨_, hwk⟩ | ⟨_, hwk⟩ <;>
        rw [hwi, hwk]
    · rw [h] at hi hk
      rcases getElem?_pair _ _ _ _ hi with ⟨hi1, hwi⟩ | ⟨hi1, hwi⟩
      · rw [hwi] at hterm
        rcases hterm with h'' | h'' <;> exact JobStatus.noConfusion h''
      · rcases getElem?_pair _ _ _ _ hk with ⟨hk1, hwk⟩ | ⟨hk1, hwk⟩
        · omega
        · rw [hwi, hwk]
    · rw [h] at hi hk
      rcases getElem?_pair _ _ _ _ hi with ⟨_, hwi⟩ | ⟨_, hwi⟩ <;> rw [hwi] at hterm <;>
        rcases hterm with h'' | h'' <;> exact JobStatus.noConfusion h''
  · intro i wi hi hurl
    rcases poll_prefix_shape job_id tm events _ (List.prefix_refl _) with hall | ⟨pre0, heq2, hall⟩
    · exact absurd (hall wi (List.getElem?_mem hi)) hurl
    · rw [heq2] at hi ⊢
      by_cases hlt : i < pre0.length
      · rw [List.getElem?_append_left hlt] at hi
        exact absurd (hall wi (List.getElem?_mem hi)) hurl
      · push_neg at hlt
        rw [List.getElem?_append_right hlt] at hi
        obtain ⟨h0, _⟩ := getElem?_single _ _ _ hi
        simp [List.length_append]
        omega

/-- Witness for C2 (amended): the SUCCESS-with-url write of a
successful run sits at the final index of its two-write trace. -/
theorem C2_terminal_stability_amended_witness :
    (poll_job_status "j" 45 [.status 2 .ok]).1[1]?
      = some ⟨JobStatus.SUCCESS, none, some (upload_usdz_placeholder "j")⟩ ∧
    (1 : Nat) = (poll_job_status "j" 45 [.status 2 .ok]).1.length - 1 :=
  ⟨rfl, (C2_terminal_stability_amended "j" 45 [.status 2 .ok]).2 1
      ⟨JobStatus.SUCCESS, none, some (upload_usdz_placeholder "j")⟩ rfl
      (by simp)⟩

/-- C6: if the first `n` loop iterations continue polling and an
exception is raised in the body of iteration `n`, the orchestrator
catches it: the loop terminates normally (no exception propagates —
the embedding's loop result is total, and the run is marked
terminated), and the last registry write is FAILED with an error
message containing the exception's text (it is literally a fixed
prefix followed by that text). -/
theorem C6_poll_catches_exceptions (job_id : String) (tm : Nat)
    (events : List PollEvent) (n : Nat) (msg : String)
    (hbefore : ∀ e ∈ events.take n, (poll_step job_id tm e).2 = true)
    (hn : events[n]? = some (.raises msg)) :
    (poll_job_status job_id tm events).2 = true ∧
    (poll_job_status job_id tm events).1.getLast?
      = some ⟨JobStatus.FAILED, some ("Error polling job status: " ++ msg), none⟩ ∧
    ∃ p, "Error polling job status: " ++ msg = p ++ msg := by
  induction events generalizing n with
  | nil => simp at hn
  | cons e rest ih =>
    cases n with
    | zero =>
      have he : e = PollEvent.raises msg := by simpa using hn
      subst he
      exact ⟨rfl, rfl, ⟨"Error polling job status: ", rfl⟩⟩
    | succ n' =>
      have hstep : (poll_step job_id tm e).2 = true :=
        hbefore e (by simp [List.take_succ_cons])
      have hbefore' : ∀ e' ∈ rest.take n', (poll_step job_id tm e').2 = true := by
        intro e' he'
        exact hbefore e' (by simp [List.take_succ_cons, he'])
      have hn' : rest[n']? = some (.raises msg) := by simpa using hn
      obtain ⟨hfin, hlast, hex⟩ := ih n' hbefore' hn'
      rcases hps : poll_step job_id tm e with ⟨ws, b⟩
      rw [hps] at hstep
      simp only at hstep
      subst hstep
      have hpoll : poll_job_status job_id tm (e :: rest)
          = (ws ++ (poll_job_status job_id tm rest).1,
             (poll_job_status job_id tm rest).2) := by
        simp [poll_job_status, hps]
      rw [hpoll]
      refine ⟨hfin, ?_, hex⟩
      rw [List.getLast?_append, hlast]
      rfl

/-- Witness for C6: the first iteration sees provider code 0 (still
processing) and continues; the second raises "boom"; the loop ends
with a FAILED write carrying the exception text. -/
theorem C6_poll_catches_exceptions_witness :
    (∀ e ∈ ([PollEvent.status 0 .ok, PollEvent.raises "boom"].take 1),
      (poll_step "j" 45 e).2 = true) ∧
    ([PollEvent.status 0 .ok, PollEvent.raises "boom"][1]?
      = some (PollEvent.raises "boom")) ∧
    ((poll_job_status "j" 45 [PollEvent.status 0 .ok, PollEvent.raises "boom"]).2 = true ∧
     (poll_job_status "j" 45 [PollEvent.status 0 .ok, PollEvent.raises "boom"]).1.getLast?
       = some ⟨JobStatus.FAILED, some ("Error polling job status: " ++ "boom"), none⟩ ∧
     ∃ p, "Error polling job status: " ++ "boom" = p ++ "boom") :=
  ⟨by intro e he; simp at he; subst he; rfl, rfl,
   C6_poll_catches_exceptions "j" 45 [PollEvent.status 0 .ok, PollEvent.raises "boom"]
     1 "boom" (by intro e he; simp at he; subst he; rfl) rfl⟩

end HackHarvard
